import Mathlib

/-!
Shallow embedding of the Attendance & Payroll Ledger of `clock_bot.py`.

Tables become explicit state: `clock_logs` (unique on user+date, so a
function), `ot_logs`, `claims`, `salary_payments`, `monthly_reports`,
`drivers`.  Timestamps are seconds as `Int`; money and hours are `ℚ`.
The VARCHAR `clock_in`/`clock_out` columns hold either NULL, the literal
string "OFF", a parseable "%Y-%m-%d %H:%M:%S" stamp, or a malformed
string; that is the four-way `ClockVal` classification below.
-/

namespace ClockBot

/-- Content of a `clock_in`/`clock_out` VARCHAR cell: the "OFF" sentinel,
a parseable timestamp (seconds), or a malformed string. -/
inductive ClockVal where
  | off
  | time (v : Int)
  | bad
deriving Repr, DecidableEq

/-- One `clock_logs` row (unique on user+date). -/
structure ClockLog where
  clock_in : Option ClockVal
  clock_out : Option ClockVal
  is_off : Bool
  paid : Bool
  location : Option String
deriving Repr, DecidableEq

/-- One `ot_logs` row. -/
structure OtLog where
  user : Int
  date : Int
  start : Int
  end_time : Option Int
  duration : ℚ
  paid : Bool
deriving Repr, DecidableEq

/-- One `claims` row (the fields the ledger reads). -/
structure Claim where
  user : Int
  amount : ℚ
  date : Int
  status : Option String
deriving Repr, DecidableEq

/-- One `salary_payments` row. -/
structure Payment where
  user : Int
  salary_amount : ℚ
  claims_amount : ℚ
  total_amount : ℚ
  work_days : ℕ
  off_days : ℕ
  work_hours : ℚ
  ot_hours : ℚ
  period_start : Int
  period_end : Int
deriving Repr, DecidableEq

/-- One `monthly_reports` row (unique on user+report_date). -/
structure Report where
  total_claims : ℚ
  total_ot_hours : ℚ
  total_salary : ℚ
  work_days : ℕ
deriving Repr, DecidableEq

/-- One `drivers` row (the fields the ledger reads). -/
structure Driver where
  monthly_salary : ℚ
  total_hours : ℚ
deriving Repr, DecidableEq

/-- The relational store. -/
structure Db where
  drivers : Int → Option Driver
  clock_logs : Int → Int → Option ClockLog
  ot_logs : List OtLog
  claims : List Claim
  salary_payments : List Payment
  monthly_reports : Int → Int → Option Report

/-- `date BETWEEN fd AND ld`. -/
def inRangeB (fd ld d : Int) : Bool :=
  decide (fd ≤ d) && decide (d ≤ ld)

/-- The dates `fd, fd+1, ..., ld`. -/
def dateRange (fd ld : Int) : List Int :=
  (List.range (ld + 1 - fd).toNat).map (fun (n : ℕ) => fd + (n : Int))

/-- `status IS NULL OR status = 'PENDING'`. -/
def isPendingB : Option String → Bool
  | none => true
  | some s => s == "PENDING"

/-- Point update of the `clock_logs` table at (u, d). -/
def setClockLog (f : Int → Int → Option ClockLog) (u d : Int) (r : ClockLog) :
    Int → Int → Option ClockLog :=
  fun v e => if v = u ∧ e = d then some r else f v e

/-! ### Configuration constants (clock_bot.py lines 39-42, default values) -/

def DEFAULT_HOURLY_RATE : ℚ := 20
def DEFAULT_MONTHLY_SALARY : ℚ := 3500
def WORKING_DAYS_PER_MONTH : ℚ := 22
def WORKING_HOURS_PER_DAY : ℚ := 8

/-! ### ClockIn: `handle_location` (clock_bot.py 458-519)

The geocode collaborator `get_address_from_location` (2104-2123) returns
the formatted address, or "Location details not available" when no API
key is configured, "Address not available" when the lookup returns no
result, and "Address lookup failed" when the HTTP request raises. -/

inductive GeoResult where
  | ok (addr : String)
  | noKey
  | notAvailable
  | failed
deriving Repr, DecidableEq

def geoString : GeoResult → String
  | GeoResult.ok a => a
  | GeoResult.noKey => "Location details not available"
  | GeoResult.notAvailable => "Address not available"
  | GeoResult.failed => "Address lookup failed"

/-- The abort test in `handle_location` line 466. -/
def geoAborts (a : String) : Bool :=
  a == "API key not available" || a == "Address not available" || a == "Address lookup failed"

/-- `handle_location`: aborts when the address is in the abort list;
otherwise `INSERT ... ON CONFLICT (user_id, date) DO UPDATE SET
clock_in = now, location_address = addr, is_off = FALSE` (the update
branch leaves `clock_out` untouched).  Returns the new state and whether
the clock-in was recorded. -/
def handle_location (db : Db) (u d tval : Int) (g : GeoResult) : Db × Bool :=
  let addr := geoString g
  if geoAborts addr then (db, false)
  else
    let newRec : ClockLog :=
      match db.clock_logs u d with
      | some r => { r with clock_in := some (ClockVal.time tval),
                           location := some addr, is_off := false }
      | none => { clock_in := some (ClockVal.time tval), clock_out := none,
                  is_off := false, paid := false, location := some addr }
    ({ db with clock_logs := setClockLog db.clock_logs u d newRec }, true)

/-! ### ClockOut: `clockout` (clock_bot.py 384-446) -/

inductive ClockOutResult where
  | notClockedIn
  | parseError
  | ok (hours : ℚ)
deriving Repr, DecidableEq

/-- `clockout`: fails with "You haven't clocked in today." when there is
no row, a NULL `clock_in`, or the "OFF" sentinel; a malformed `clock_in`
hits the strptime except-branch and the uncommitted UPDATE is rolled
back on connection release.  Otherwise it sets `clock_out = now`,
computes `hours = (out - in)/3600` (no sign check, no requirement that
`clock_out` was NULL) and adds it to the driver's `total_hours`. -/
def clockout (db : Db) (u d tval : Int) : Db × ClockOutResult :=
  match db.clock_logs u d with
  | none => (db, ClockOutResult.notClockedIn)
  | some r =>
    match r.clock_in with
    | none => (db, ClockOutResult.notClockedIn)
    | some ClockVal.off => (db, ClockOutResult.notClockedIn)
    | some ClockVal.bad => (db, ClockOutResult.parseError)
    | some (ClockVal.time i) =>
      let hours : ℚ := ((tval : ℚ) - (i : ℚ)) / 3600
      ({ db with
          clock_logs := (setClockLog db.clock_logs u d
            { r with clock_out := some (ClockVal.time tval) }),
          drivers := fun v =>
            if v = u then
              (db.drivers v).map (fun drv => { drv with total_hours := drv.total_hours + hours })
            else db.drivers v },
       ClockOutResult.ok hours)

/-! ### MarkOffDay: `offday` (clock_bot.py 833-875) -/

inductive OffdayResult where
  | conflict
  | ok
deriving Repr, DecidableEq

/-- `offday`: refuses when the day's row has a non-NULL `clock_in` or
`clock_out`; otherwise updates or inserts the row as an off-day with
both clock fields NULL. -/
def offday (db : Db) (u d : Int) : Db × OffdayResult :=
  match db.clock_logs u d with
  | some r =>
    if r.clock_in.isSome || r.clock_out.isSome then (db, OffdayResult.conflict)
    else
      ({ db with clock_logs := (setClockLog db.clock_logs u d
          { r with clock_in := none, clock_out := none, is_off := true }) },
       OffdayResult.ok)
  | none =>
    ({ db with clock_logs := (setClockLog db.clock_logs u d
        { clock_in := none, clock_out := none, is_off := true, paid := false, location := none }) },
     OffdayResult.ok)

/-! ### ToggleOvertime: `ot` (clock_bot.py 2270-2327) -/

/-- The WHERE clause `user_id = u AND date = d AND end_time IS NULL`. -/
def isOpenFor (u d : Int) (s : OtLog) : Bool :=
  s.user == u && s.date == d && s.end_time.isNone

/-- The `UPDATE ot_logs SET end_time, duration WHERE id = ...` applied to
the row `fetchone` returned (the first open row for (u, d)). -/
def closeFirst (u d tval : Int) : List OtLog → List OtLog
  | [] => []
  | s :: rest =>
    if isOpenFor u d s then
      { s with end_time := some tval, duration := ((tval : ℚ) - (s.start : ℚ)) / 3600 } :: rest
    else s :: closeFirst u d tval rest

inductive OtResult where
  | started
  | completed (dur : ℚ)
deriving Repr, DecidableEq

/-- `ot`: open a session when none is open for (u, today), else close the
open one with `duration = (end - start)/3600` (no sign check). -/
def ot (db : Db) (u d tval : Int) : Db × OtResult :=
  match db.ot_logs.find? (isOpenFor u d) with
  | none =>
    ({ db with ot_logs := db.ot_logs ++
        [{ user := u, date := d, start := tval, end_time := none, duration := 0, paid := false }] },
     OtResult.started)
  | some s =>
    ({ db with ot_logs := closeFirst u d tval db.ot_logs },
     OtResult.completed (((tval : ℚ) - (s.start : ℚ)) / 3600))

/-! ### ComputeSettlement: the read-only part of `paid_select_driver`
(clock_bot.py 1153-1307) -/

/-- `COUNT(DISTINCT CASE WHEN NOT is_off THEN date END)` over the rows of
(u, [fd, ld]): dates in range holding a row with `is_off` false.  Note:
no condition on `clock_in`/`clock_out` and no condition on `paid`. -/
def workDays (db : Db) (u fd ld : Int) : ℕ :=
  ((dateRange fd ld).filter (fun d =>
    match db.clock_logs u d with
    | some r => !r.is_off
    | none => false)).length

/-- `COUNT(DISTINCT CASE WHEN is_off THEN date END)`. -/
def offDays (db : Db) (u fd ld : Int) : ℕ :=
  ((dateRange fd ld).filter (fun d =>
    match db.clock_logs u d with
    | some r => r.is_off
    | none => false)).length

/-- Hours one row contributes to `month_hours` (lines 1228-1240): both
clocks must be parseable timestamps (NULL, "OFF" and malformed values
fall through to zero) and only strictly positive durations are added. -/
def rowHours (r : ClockLog) : ℚ :=
  if r.is_off then 0
  else
    match r.clock_in, r.clock_out with
    | some (ClockVal.time i), some (ClockVal.time o) =>
      let h : ℚ := ((o : ℚ) - (i : ℚ)) / 3600
      if 0 < h then h else 0
    | _, _ => 0

/-- The `month_hours` loop over the rows of (u, [fd, ld]).  No condition
on `paid`. -/
def monthHours (db : Db) (u fd ld : Int) : ℚ :=
  ((dateRange fd ld).map (fun d =>
    match db.clock_logs u d with
    | some r => rowHours r
    | none => 0)).sum

/-- `SELECT COALESCE(SUM(duration), 0) FROM ot_logs WHERE user_id = u AND
date BETWEEN fd AND ld AND end_time IS NOT NULL`.  No condition on
`paid`. -/
def otHoursList (l : List OtLog) (u fd ld : Int) : ℚ :=
  ((l.filter (fun s => s.user == u && inRangeB fd ld s.date && s.end_time.isSome)).map
    (fun s => s.duration)).sum

def otHoursSum (db : Db) (u fd ld : Int) : ℚ :=
  otHoursList db.ot_logs u fd ld

/-- The claim rows counted by the settlement: in range and
`status IS NULL OR status = 'PENDING'`. -/
def countedClaimB (u fd ld : Int) (c : Claim) : Bool :=
  c.user == u && inRangeB fd ld c.date && isPendingB c.status

/-- `SELECT COALESCE(SUM(amount), 0) FROM claims WHERE ... AND
(status IS NULL OR status = 'PENDING')`. -/
def claimsSumList (l : List Claim) (u fd ld : Int) : ℚ :=
  ((l.filter (countedClaimB u fd ld)).map (fun c => c.amount)).sum

def claimsAmount (db : Db) (u fd ld : Int) : ℚ :=
  claimsSumList db.claims u fd ld

/-- The salary summary `paid_select_driver` computes and stashes in
`context.user_data`. -/
structure Settlement where
  monthly_salary : ℚ
  work_days : ℕ
  off_days : ℕ
  month_hours : ℚ
  ot_hours : ℚ
  claims_amount : ℚ
  total_amount : ℚ
deriving Repr, DecidableEq

/-- The read-only computation of `paid_select_driver`: `none` when the
worker row is missing ("Worker not found").  `total_amount =
monthly_salary + claims_amount`; no hourly rate is ever computed. -/
def paid_select_driver (db : Db) (u fd ld : Int) : Option Settlement :=
  match db.drivers u with
  | none => none
  | some drv =>
    some { monthly_salary := drv.monthly_salary
           work_days := workDays db u fd ld
           off_days := offDays db u fd ld
           month_hours := monthHours db u fd ld
           ot_hours := otHoursSum db u fd ld
           claims_amount := claimsAmount db u fd ld
           total_amount := drv.monthly_salary + claimsAmount db u fd ld }

/-! ### Finalize: `paid_confirm` (clock_bot.py 1327-1438)

One transaction with a single `conn.commit()` at the end; an exception
anywhere before the commit leaves nothing persisted (the pooled
connection is rolled back on release).  `paid_confirm_run` exposes that
commit-or-rollback behaviour through the `committed` flag. -/

/-- Step 3: `UPDATE claims SET status = 'PAID' WHERE ... AND (status IS
NULL OR status = 'PENDING')`. -/
def payClaim (u fd ld : Int) (c : Claim) : Claim :=
  if countedClaimB u fd ld c then { c with status := some "PAID" } else c

/-- Step 4.1: `UPDATE clock_logs SET paid = TRUE WHERE user_id = u AND
date BETWEEN fd AND ld`. -/
def markPaidLog (f : Int → Int → Option ClockLog) (u fd ld : Int) :
    Int → Int → Option ClockLog :=
  fun v d =>
    if v = u ∧ inRangeB fd ld d = true then
      (f v d).map (fun r => { r with paid := true })
    else f v d

/-- Step 4.2: `UPDATE ot_logs SET paid = TRUE WHERE ...`. -/
def markPaidOt (u fd ld : Int) (s : OtLog) : OtLog :=
  if s.user == u && inRangeB fd ld s.date then { s with paid := true } else s

/-- The committed transaction of `paid_confirm`. -/
def paid_confirm (db : Db) (u fd ld : Int) (s : Settlement) : Db :=
  { db with
    salary_payments := db.salary_payments ++
      [{ user := u, salary_amount := s.monthly_salary, claims_amount := s.claims_amount,
         total_amount := s.total_amount, work_days := s.work_days, off_days := s.off_days,
         work_hours := s.month_hours, ot_hours := s.ot_hours,
         period_start := fd, period_end := ld }]
    monthly_reports := fun v d =>
      if v = u ∧ d = fd then
        some { total_claims := s.claims_amount, total_ot_hours := s.ot_hours,
               total_salary := s.total_amount, work_days := s.work_days }
      else db.monthly_reports v d
    claims := db.claims.map (payClaim u fd ld)
    clock_logs := markPaidLog db.clock_logs u fd ld
    ot_logs := db.ot_logs.map (markPaidOt u fd ld) }

/-- `paid_confirm` with its commit-or-rollback behaviour made explicit:
when any step raises, the single end-of-transaction commit is never
reached and the state is unchanged. -/
def paid_confirm_run (db : Db) (u fd ld : Int) (s : Settlement) (committed : Bool) : Db :=
  if committed then paid_confirm db u fd ld s else db

/-! ### Concrete states used by the scenario theorems -/

/-- A store with no rows. -/
def emptyDb : Db :=
  { drivers := fun _ => none
    clock_logs := fun _ _ => none
    ot_logs := []
    claims := []
    salary_payments := []
    monthly_reports := fun _ _ => none }

/-- Worker 7 earns 3500, is fully clocked on date 5 (09:00-17:00, i.e.
32400 s to 61200 s), and has one pending claim of 50 dated 5. -/
def dbFull : Db :=
  { drivers := fun v => if v = 7 then some { monthly_salary := 3500, total_hours := 0 } else none
    clock_logs := fun v d =>
      if v = 7 ∧ d = 5 then
        some { clock_in := some (ClockVal.time 32400), clock_out := some (ClockVal.time 61200),
               is_off := false, paid := false, location := none }
      else none
    ot_logs := []
    claims := [{ user := 7, amount := 50, date := 5, status := some "PENDING" }]
    salary_payments := []
    monthly_reports := fun _ _ => none }

/-- The settlement `paid_select_driver` computes for `dbFull` over
1..10. -/
def sFull : Settlement :=
  { monthly_salary := 3500, work_days := 1, off_days := 0, month_hours := 8,
    ot_hours := 0, claims_amount := 50, total_amount := 3550 }

/-! ### Helper lemmas -/

theorem mem_dateRange {fd ld d : Int} (hd : d ∈ dateRange fd ld) : fd ≤ d ∧ d ≤ ld := by
  unfold dateRange at hd
  rw [List.mem_map] at hd
  obtain ⟨i, hi, rfl⟩ := hd
  rw [List.mem_range] at hi
  constructor <;> omega

theorem inRangeB_of_mem {fd ld d : Int} (hd : d ∈ dateRange fd ld) :
    inRangeB fd ld d = true := by
  obtain ⟨h1, h2⟩ := mem_dateRange hd
  simp [inRangeB, h1, h2]

theorem countedClaimB_payClaim (u fd ld : Int) (c : Claim) :
    countedClaimB u fd ld (payClaim u fd ld c) = false := by
  unfold payClaim
  split
  · simp [countedClaimB, isPendingB]
  · next h => simpa using h

theorem claimsSumList_map_payClaim (l : List Claim) (u fd ld : Int) :
    claimsSumList (l.map (payClaim u fd ld)) u fd ld = 0 := by
  induction l with
  | nil => rfl
  | cons c l ih =>
    simp only [List.map_cons, claimsSumList, List.filter_cons, countedClaimB_payClaim]
    simpa [claimsSumList] using ih

theorem rowHours_paid (r : ClockLog) : rowHours { r with paid := true } = rowHours r := by
  cases r
  rfl

theorem markPaidOt_user (u fd ld : Int) (s : OtLog) : (markPaidOt u fd ld s).user = s.user := by
  unfold markPaidOt
  split <;> rfl

theorem markPaidOt_date (u fd ld : Int) (s : OtLog) : (markPaidOt u fd ld s).date = s.date := by
  unfold markPaidOt
  split <;> rfl

theorem markPaidOt_end (u fd ld : Int) (s : OtLog) :
    (markPaidOt u fd ld s).end_time = s.end_time := by
  unfold markPaidOt
  split <;> rfl

theorem markPaidOt_duration (u fd ld : Int) (s : OtLog) :
    (markPaidOt u fd ld s).duration = s.duration := by
  unfold markPaidOt
  split <;> rfl

theorem otHoursList_map_markPaidOt (l : List OtLog) (u fd ld u2 fd2 ld2 : Int) :
    otHoursList (l.map (markPaidOt u fd ld)) u2 fd2 ld2 = otHoursList l u2 fd2 ld2 := by
  induction l with
  | nil => rfl
  | cons s l ih =>
    simp only [List.map_cons, otHoursList, List.filter_cons,
      markPaidOt_user, markPaidOt_date, markPaidOt_end]
    by_cases h : (s.user == u2 && inRangeB fd2 ld2 s.date && s.end_time.isSome) = true
    · simpa [h, markPaidOt_duration, otHoursList] using ih
    · simpa [h, otHoursList] using ih

/-! ### C2: Finalize atomicity -/

/-- Every claim counted in the pre-state is PAID in the post-state
(positional comparison of the two claim lists). -/
def claimsMarkedB (old new : List Claim) (u fd ld : Int) : Bool :=
  (old.zip new).all (fun p => !(countedClaimB u fd ld p.1) || (p.2.status == some "PAID"))

/-- Every attendance row of the worker in the period is marked paid. -/
def attendanceMarkedB (db : Db) (u fd ld : Int) : Bool :=
  (dateRange fd ld).all (fun d =>
    match db.clock_logs u d with
    | some r => r.paid
    | none => true)

/-- Every overtime row of the worker in the period is marked paid. -/
def otMarkedB (db : Db) (u fd ld : Int) : Bool :=
  (db.ot_logs.filter (fun s => s.user == u && inRangeB fd ld s.date)).all (fun s => s.paid)

theorem claimsMarkedB_map_payClaim (l : List Claim) (u fd ld : Int) :
    claimsMarkedB l (l.map (payClaim u fd ld)) u fd ld = true := by
  induction l with
  | nil => rfl
  | cons c l ih =>
    simp only [claimsMarkedB, List.map_cons, List.zip_cons_cons, List.all_cons] at *
    rw [Bool.and_eq_true]
    refine ⟨?_, ih⟩
    by_cases h : countedClaimB u fd ld c = true
    · simp [payClaim, h]
    · simp [payClaim, h]

theorem otMarkedB_map_markPaidOt (l : List OtLog) (u fd ld : Int) :
    (l.map (markPaidOt u fd ld)).all
      (fun s => !(s.user == u && inRangeB fd ld s.date) || s.paid) = true := by
  induction l with
  | nil => rfl
  | cons s l ih =>
    simp only [List.map_cons, List.all_cons]
    rw [Bool.and_eq_true]
    refine ⟨?_, ih⟩
    by_cases h : (s.user == u && inRangeB fd ld s.date) = true
    · simp [markPaidOt, h]
    · simp [markPaidOt, h, markPaidOt_user, markPaidOt_date]

/-- C2 (confirmed): `paid_confirm` is a single transaction with one
commit: when it does not commit the state is untouched, and when it
commits it appends exactly one `salary_payments` row carrying the
settlement figures, marks every counted claim PAID, and marks every
attendance and overtime row of the worker in the period paid — so a
partial settlement is never observable. -/
theorem paid_confirm_atomic (db : Db) (u fd ld : Int) (s : Settlement) :
    paid_confirm_run db u fd ld s false = db
    ∧ (paid_confirm_run db u fd ld s true).salary_payments =
        db.salary_payments ++
          [{ user := u, salary_amount := s.monthly_salary, claims_amount := s.claims_amount,
             total_amount := s.total_amount, work_days := s.work_days, off_days := s.off_days,
             work_hours := s.month_hours, ot_hours := s.ot_hours,
             period_start := fd, period_end := ld }]
    ∧ (paid_confirm_run db u fd ld s true).salary_payments.length =
        db.salary_payments.length + 1
    ∧ claimsMarkedB db.claims (paid_confirm_run db u fd ld s true).claims u fd ld = true
    ∧ attendanceMarkedB (paid_confirm_run db u fd ld s true) u fd ld = true
    ∧ otMarkedB (paid_confirm_run db u fd ld s true) u fd ld = true := by
  refine ⟨rfl, rfl, by simp [paid_confirm_run, paid_confirm], ?_, ?_, ?_⟩
  · simpa [paid_confirm_run, paid_confirm] using
      claimsMarkedB_map_payClaim db.claims u fd ld
  · simp only [paid_confirm_run, if_pos, paid_confirm, attendanceMarkedB, List.all_eq_true]
    intro d hd
    have hr := inRangeB_of_mem hd
    simp only [markPaidLog, hr, and_true, if_pos rfl]
    cases db.clock_logs u d <;> simp
  · simp only [paid_confirm_run, if_pos, paid_confirm, otMarkedB]
    have h := otMarkedB_map_markPaidOt db.ot_logs u fd ld
    simp only [List.all_eq_true] at h ⊢
    intro s2 hs2
    have hmem := List.mem_filter.mp hs2
    have := h s2 hmem.1
    simp only [hmem.2, Bool.not_true, Bool.false_or] at this
    exact this

/-! ### C1: settlement after finalize -/

/-- C1 (code bug): finalizing and then recomputing the settlement over
the same period still reports the full 8 work hours (and re-offers the
full base salary): `paid_select_driver`'s attendance and overtime
queries never filter on the `paid` flag that `paid_confirm` sets, even
though the sibling `checkstate_select_user` queries do filter
`paid = FALSE`.  Only the claims total drops to 0. -/
theorem finalize_then_recompute_not_zero :
    paid_select_driver dbFull 7 5 5 = some sFull
    ∧ claimsAmount (paid_confirm dbFull 7 5 5 sFull) 7 5 5 = 0
    ∧ monthHours (paid_confirm dbFull 7 5 5 sFull) 7 5 5 = 8
    ∧ paid_select_driver (paid_confirm dbFull 7 5 5 sFull) 7 5 5 =
        some { monthly_salary := 3500, work_days := 1, off_days := 0, month_hours := 8,
               ot_hours := 0, claims_amount := 0, total_amount := 3500 } := by
  have hdr : dateRange 5 5 = [5] := by decide
  have hne : ¬("PAID" = "PENDING") := by decide
  refine ⟨?_, ?_, ?_, ?_⟩
  · simp only [paid_select_driver, dbFull, sFull]
    norm_num [workDays, offDays, monthHours, otHoursSum, otHoursList, claimsAmount,
      claimsSumList, countedClaimB, inRangeB, isPendingB, rowHours, hdr]
  · norm_num [paid_confirm, dbFull, sFull, claimsAmount, claimsSumList, payClaim,
      countedClaimB, inRangeB, isPendingB, List.filter_cons, List.filter_nil, hne]
  · norm_num [paid_confirm, dbFull, sFull, monthHours, hdr, markPaidLog, inRangeB, rowHours]
  · simp only [paid_confirm, paid_select_driver, dbFull, sFull]
    norm_num [workDays, offDays, monthHours, otHoursSum, otHoursList, claimsAmount,
      claimsSumList, countedClaimB, inRangeB, isPendingB, rowHours, hdr, markPaidLog,
      markPaidOt, payClaim, List.filter_cons, List.filter_nil, hne]

/-! ### C3: work-day count and work hours -/

/-- Both clock cells hold parseable timestamps. -/
def fullyClockedB (r : ClockLog) : Bool :=
  match r.clock_in, r.clock_out with
  | some (ClockVal.time _), some (ClockVal.time _) => true
  | _, _ => false

/-- Modelled from the spec (C3 wording): the work-day count the claim
prescribes — distinct dates in range whose record is non-off-day AND has
both clock-in and clock-out present.  The code's `workDays` has no
clock-field condition. -/
def specWorkDays (db : Db) (u fd ld : Int) : ℕ :=
  ((dateRange fd ld).filter (fun d =>
    match db.clock_logs u d with
    | some r => !r.is_off && fullyClockedB r
    | none => false)).length

/-- Worker 7 clocked in on date 5 and never clocked out. -/
def dbInOnly : Db :=
  { drivers := fun v => if v = 7 then some { monthly_salary := 3500, total_hours := 0 } else none
    clock_logs := fun v d =>
      if v = 7 ∧ d = 5 then
        some { clock_in := some (ClockVal.time 100), clock_out := none,
               is_off := false, paid := false, location := none }
      else none
    ot_logs := []
    claims := []
    salary_payments := []
    monthly_reports := fun _ _ => none }

/-- C3 counterexample: a record with a clock-in but no clock-out is
counted as a work day by the code (`workDays = 1`), while the claim's
criterion — both clocks present — counts zero. -/
theorem workday_count_cex :
    workDays dbInOnly 7 5 5 = 1 ∧ specWorkDays dbInOnly 7 5 5 = 0 := by
  constructor <;> decide

theorem filter_length_mono {α : Type} {p q : α → Bool} (l : List α)
    (h : ∀ a, p a = true → q a = true) :
    (l.filter p).length ≤ (l.filter q).length := by
  induction l with
  | nil => simp
  | cons a l ih =>
    simp only [List.filter_cons]
    by_cases hp : p a = true
    · simp only [hp, h a hp, if_pos, List.length_cons]
      omega
    · by_cases hq : q a = true <;> simp [hp, hq] <;> omega

/-- C3 amended: the code's work-day count counts every date in range
with a non-off-day record, whether or not the clocks are present; it
dominates the claim's fully-clocked count and agrees with it exactly
when every non-off record in range is fully clocked.  The zero-hours
part of the claim does hold: a record with a NULL or "OFF" clock cell
contributes zero hours. -/
theorem workday_count_amended (db : Db) (u fd ld : Int) (r : ClockLog)
    (h : r.clock_in = none ∨ r.clock_out = none ∨
         r.clock_in = some ClockVal.off ∨ r.clock_out = some ClockVal.off) :
    rowHours r = 0
    ∧ specWorkDays db u fd ld ≤ workDays db u fd ld
    ∧ ((∀ d, fd ≤ d → d ≤ ld → ∀ rec, db.clock_logs u d = some rec →
          rec.is_off = false → fullyClockedB rec = true) →
        workDays db u fd ld = specWorkDays db u fd ld) := by
  refine ⟨?_, ?_, ?_⟩
  · obtain ⟨ci, co, io, pd, loc⟩ := r
    rcases h with h | h | h | h <;> simp only at h <;> subst h <;>
      cases io <;> simp [rowHours]
  · apply filter_length_mono
    intro d hd
    cases hlog : db.clock_logs u d <;> simp [hlog] at hd ⊢
    exact hd.1
  · intro hall
    unfold workDays specWorkDays
    congr 1
    apply List.filter_congr
    intro d hd
    obtain ⟨h1, h2⟩ := mem_dateRange hd
    cases hlog : db.clock_logs u d with
    | none => rfl
    | some rec =>
      simp only
      cases hio : rec.is_off with
      | true => simp
      | false => simp [hall d h1 h2 rec hlog hio]

/-- Witness for `workday_count_amended` at a record with a NULL
clock-in. -/
theorem workday_count_amended_w :
    rowHours { clock_in := none, clock_out := none, is_off := false,
               paid := false, location := none } = 0
    ∧ specWorkDays dbInOnly 7 5 5 ≤ workDays dbInOnly 7 5 5
    ∧ ((∀ d, (5 : Int) ≤ d → d ≤ 5 → ∀ rec, dbInOnly.clock_logs 7 d = some rec →
          rec.is_off = false → fullyClockedB rec = true) →
        workDays dbInOnly 7 5 5 = specWorkDays dbInOnly 7 5 5) :=
  workday_count_amended dbInOnly 7 5 5 _ (Or.inl rfl)

/-! ### C4: salary rate -/

/-- Modelled from the spec (C4 wording): hourly rate =
`monthlySalary / (workingDaysPerMonth × workingHoursPerDay)`, falling
back to the configured default rate when `monthlySalary` is unset or
non-positive.  No such rate is computed anywhere in the code; the
constants of lines 39-42 are never read by the settlement. -/
def spec_hourlyRate (salary : ℚ) : ℚ :=
  if salary ≤ 0 then DEFAULT_HOURLY_RATE
  else salary / (WORKING_DAYS_PER_MONTH * WORKING_HOURS_PER_DAY)

/-- Worker 7 with monthly salary 0 and a full 8-hour day on date 5. -/
def dbZeroSalary : Db :=
  { drivers := fun v => if v = 7 then some { monthly_salary := 0, total_hours := 0 } else none
    clock_logs := fun v d =>
      if v = 7 ∧ d = 5 then
        some { clock_in := some (ClockVal.time 32400), clock_out := some (ClockVal.time 61200),
               is_off := false, paid := false, location := none }
      else none
    ot_logs := []
    claims := []
    salary_payments := []
    monthly_reports := fun _ _ => none }

/-- C4 counterexample: with `monthly_salary = 0` and 8 recorded hours
the code's settlement pays base 0 and total 0 — no fallback to the
default rate (which would price those hours at 20/h = 160) ever
happens, because no hourly rate is computed at all. -/
theorem salary_rate_cex :
    paid_select_driver dbZeroSalary 7 5 5 =
      some { monthly_salary := 0, work_days := 1, off_days := 0, month_hours := 8,
             ot_hours := 0, claims_amount := 0, total_amount := 0 }
    ∧ spec_hourlyRate 0 * (8 : ℚ) = 160
    ∧ ((0 : ℚ) ≠ 160) := by
  have hdr : dateRange 5 5 = [5] := by decide
  refine ⟨?_, ?_, ?_⟩
  · simp only [paid_select_driver, dbZeroSalary]
    norm_num [workDays, offDays, monthHours, otHoursSum, otHoursList, claimsAmount,
      claimsSumList, rowHours, hdr]
  · norm_num [spec_hourlyRate, DEFAULT_HOURLY_RATE]
  · norm_num

/-- C4 amended: the settlement never computes an hourly rate: its base
salary is the worker's `monthly_salary` taken verbatim (no fallback,
no division, even when non-positive) and the total is
`monthly_salary + claims_amount`. -/
theorem salary_rate_amended (db : Db) (u fd ld : Int) (s : Settlement) (drv : Driver)
    (hdrv : db.drivers u = some drv) (hs : paid_select_driver db u fd ld = some s) :
    s.monthly_salary = drv.monthly_salary
    ∧ s.total_amount = s.monthly_salary + s.claims_amount := by
  unfold paid_select_driver at hs
  rw [hdrv] at hs
  simp only [Option.some.injEq] at hs
  subst hs
  exact ⟨rfl, rfl⟩

/-- Witness for `salary_rate_amended` at `dbZeroSalary`. -/
theorem salary_rate_amended_w :
    ((paid_select_driver dbZeroSalary 7 5 5).getD
        { monthly_salary := 1, work_days := 0, off_days := 0, month_hours := 0,
          ot_hours := 0, claims_amount := 0, total_amount := 0 }).monthly_salary = 0
    ∧ ((paid_select_driver dbZeroSalary 7 5 5).getD
        { monthly_salary := 1, work_days := 0, off_days := 0, month_hours := 0,
          ot_hours := 0, claims_amount := 0, total_amount := 0 }).total_amount =
      ((paid_select_driver dbZeroSalary 7 5 5).getD
        { monthly_salary := 1, work_days := 0, off_days := 0, month_hours := 0,
          ot_hours := 0, claims_amount := 0, total_amount := 0 }).monthly_salary +
      ((paid_select_driver dbZeroSalary 7 5 5).getD
        { monthly_salary := 1, work_days := 0, off_days := 0, month_hours := 0,
          ot_hours := 0, claims_amount := 0, total_amount := 0 }).claims_amount := by
  have hdrv : dbZeroSalary.drivers 7 =
      some { monthly_salary := 0, total_hours := 0 } := rfl
  have hs : paid_select_driver dbZeroSalary 7 5 5 =
      some { monthly_salary := 0, work_days := workDays dbZeroSalary 7 5 5,
             off_days := offDays dbZeroSalary 7 5 5,
             month_hours := monthHours dbZeroSalary 7 5 5,
             ot_hours := otHoursSum dbZeroSalary 7 5 5,
             claims_amount := claimsAmount dbZeroSalary 7 5 5,
             total_amount := 0 + claimsAmount dbZeroSalary 7 5 5 } := by
    unfold paid_select_driver
    rw [hdrv]
  have h := salary_rate_amended dbZeroSalary 7 5 5 _ _ hdrv hs
  rw [hs]
  exact h

/-! ### C5: ClockIn conflict contract -/

/-- Worker 7 has date 10 marked as an off-day. -/
def dbOffDay : Db :=
  { drivers := fun v => if v = 7 then some { monthly_salary := 3500, total_hours := 0 } else none
    clock_logs := fun v d =>
      if v = 7 ∧ d = 10 then
        some { clock_in := none, clock_out := none, is_off := true, paid := false, location := none }
      else none
    ot_logs := []
    claims := []
    salary_payments := []
    monthly_reports := fun _ _ => none }

/-- C5 counterexample: clocking in on a day already marked off does NOT
fail with a conflict — the upsert succeeds, overwrites the clock-in and
clears the off-day flag. -/
theorem clockin_conflict_cex :
    (handle_location dbOffDay 7 10 100 (GeoResult.ok "Jalan Ampang")).2 = true
    ∧ (handle_location dbOffDay 7 10 100 (GeoResult.ok "Jalan Ampang")).1.clock_logs 7 10 =
        some { clock_in := some (ClockVal.time 100), clock_out := none, is_off := false,
               paid := false, location := some "Jalan Ampang" } := by
  constructor <;> decide

/-- C5 amended: `handle_location` never raises a conflict: whenever the
geocode string is not in the abort list, the clock-in succeeds
unconditionally — off-day or live clock-in notwithstanding — overwriting
`clock_in`, clearing the off-day flag and keeping any existing
`clock_out`; an abort-listed geocode string leaves the state unchanged. -/
theorem clockin_always_overwrites (db : Db) (u d tval : Int) (g : GeoResult) :
    (geoAborts (geoString g) = true → handle_location db u d tval g = (db, false))
    ∧ (geoAborts (geoString g) = false →
        (handle_location db u d tval g).2 = true
        ∧ (handle_location db u d tval g).1.clock_logs u d =
            some { clock_in := some (ClockVal.time tval),
                   clock_out := (db.clock_logs u d).elim none (fun r => r.clock_out),
                   is_off := false,
                   paid := (db.clock_logs u d).elim false (fun r => r.paid),
                   location := some (geoString g) } ) := by
  constructor
  · intro h
    simp [handle_location, h]
  · intro h
    cases hlog : db.clock_logs u d <;>
      simp [handle_location, h, hlog, setClockLog]

/-- Witness for `clockin_always_overwrites`: a concrete non-aborting
clock-in on an off-day succeeds. -/
theorem clockin_always_overwrites_w :
    (handle_location dbOffDay 7 10 100 (GeoResult.ok "x")).2 = true :=
  ((clockin_always_overwrites dbOffDay 7 10 100 (GeoResult.ok "x")).2 (by decide)).1

/-! ### C6: ClockOut contract -/

/-- Worker 7 clocked in at 7200 s on date 5 and is still in. -/
def dbLate : Db :=
  { drivers := fun v => if v = 7 then some { monthly_salary := 3500, total_hours := 0 } else none
    clock_logs := fun v d =>
      if v = 7 ∧ d = 5 then
        some { clock_in := some (ClockVal.time 7200), clock_out := none,
               is_off := false, paid := false, location := none }
      else none
    ot_logs := []
    claims := []
    salary_payments := []
    monthly_reports := fun _ _ => none }

/-- C6 counterexample: a clock-out one hour BEFORE the clock-in is
accepted, stored, and decrements the lifetime-hours counter by 1 — no
`InvalidTimeError` exists. -/
theorem clockout_negative_cex :
    (clockout dbLate 7 5 3600).2 = ClockOutResult.ok (-1)
    ∧ (clockout dbLate 7 5 3600).1.clock_logs 7 5 =
        some { clock_in := some (ClockVal.time 7200), clock_out := some (ClockVal.time 3600),
               is_off := false, paid := false, location := none }
    ∧ (clockout dbLate 7 5 3600).1.drivers 7 =
        some { monthly_salary := 3500, total_hours := -1 } := by
  refine ⟨?_, ?_, ?_⟩
  · norm_num [clockout, dbLate]
  · norm_num [clockout, dbLate, setClockLog]
  · norm_num [clockout, dbLate]

/-- C6 amended: `clockout` fails ("not clocked in") exactly when the row
is missing or its clock-in is NULL or the "OFF" sentinel; it does NOT
require `clock_out` to be NULL (a repeated clock-out is accepted and
adds its hours again), and it accepts a clock-out earlier than the
clock-in, storing the negative duration and adding it to the lifetime
counter — there is no `InvalidTimeError`. -/
theorem clockout_amended (db : Db) (u d tval i : Int) (r : ClockLog)
    (hrec : db.clock_logs u d = some r) (hin : r.clock_in = some (ClockVal.time i)) :
    (clockout db u d tval).2 = ClockOutResult.ok (((tval : ℚ) - (i : ℚ)) / 3600)
    ∧ (clockout db u d tval).1.clock_logs u d =
        some { r with clock_out := some (ClockVal.time tval) }
    ∧ (clockout db u d tval).1.drivers u =
        (db.drivers u).map (fun drv =>
          { drv with total_hours := drv.total_hours + ((tval : ℚ) - (i : ℚ)) / 3600 })
    ∧ (∀ db2 : Db, db2.clock_logs u d = none →
        clockout db2 u d tval = (db2, ClockOutResult.notClockedIn))
    ∧ (∀ db2 : Db, ∀ r2 : ClockLog, db2.clock_logs u d = some r2 →
        (r2.clock_in = none ∨ r2.clock_in = some ClockVal.off) →
        clockout db2 u d tval = (db2, ClockOutResult.notClockedIn)) := by
  refine ⟨?_, ?_, ?_, ?_, ?_⟩
  · simp [clockout, hrec, hin]
  · simp [clockout, hrec, hin, setClockLog]
  · simp [clockout, hrec, hin]
  · intro db2 h2
    simp [clockout, h2]
  · intro db2 r2 h2 hin2
    rcases hin2 with h | h <;> simp [clockout, h2, h]

/-- Witness for `clockout_amended` at the concrete negative-duration
state. -/
theorem clockout_amended_w :
    (clockout dbLate 7 5 3600).2 = ClockOutResult.ok (((3600 : ℚ) - ((7200 : Int) : ℚ)) / 3600)
    ∧ (clockout dbLate 7 5 3600).1.clock_logs 7 5 =
        some { clock_in := some (ClockVal.time 7200), clock_out := some (ClockVal.time 3600),
               is_off := false, paid := false, location := none }
    ∧ (clockout dbLate 7 5 3600).1.drivers 7 =
        (dbLate.drivers 7).map (fun drv =>
          { drv with total_hours := drv.total_hours + ((3600 : ℚ) - ((7200 : Int) : ℚ)) / 3600 })
    ∧ (∀ db2 : Db, db2.clock_logs 7 5 = none →
        clockout db2 7 5 3600 = (db2, ClockOutResult.notClockedIn))
    ∧ (∀ db2 : Db, ∀ r2 : ClockLog, db2.clock_logs 7 5 = some r2 →
        (r2.clock_in = none ∨ r2.clock_in = some ClockVal.off) →
        clockout db2 7 5 3600 = (db2, ClockOutResult.notClockedIn)) :=
  clockout_amended dbLate 7 5 3600 7200
    { clock_in := some (ClockVal.time 7200), clock_out := none,
      is_off := false, paid := false, location := none } rfl rfl

/-! ### C9: geocoding failure tolerance -/

/-- C9 counterexample: when the reverse-geocode lookup fails, the
clock-in is aborted and no record is stored — the operation does NOT
succeed with a sentinel location. -/
theorem geocode_failure_cex :
    handle_location emptyDb 7 1 100 GeoResult.failed = (emptyDb, false)
    ∧ emptyDb.clock_logs 7 1 = none := by
  constructor
  · simp [handle_location, geoAborts, geoString]
  · rfl

/-- C9 amended: a failed or empty geocode lookup ("Address lookup
failed" / "Address not available") aborts the clock-in and leaves the
state unchanged; only the missing-API-key case — whose return string
"Location details not available" is absent from the abort list, which
checks for "API key not available" instead — lets the clock-in succeed
with a sentinel stored in the location field. -/
theorem geocode_failure_amended (db : Db) (u d tval : Int) :
    handle_location db u d tval GeoResult.failed = (db, false)
    ∧ handle_location db u d tval GeoResult.notAvailable = (db, false)
    ∧ (handle_location db u d tval GeoResult.noKey).2 = true
    ∧ ((handle_location db u d tval GeoResult.noKey).1.clock_logs u d).elim False
        (fun r => r.location = some "Location details not available"
          ∧ r.clock_in = some (ClockVal.time tval) ∧ r.is_off = false) := by
  refine ⟨?_, ?_, ?_, ?_⟩
  · simp [handle_location, geoAborts, geoString]
  · simp [handle_location, geoAborts, geoString]
  · simp [handle_location, geoAborts, geoString]
  · cases hlog : db.clock_logs u d <;>
      simp [handle_location, geoAborts, geoString, hlog, setClockLog]

/-! ### C8 / C10: overtime sessions -/

/-- All `ot_logs` rows of (u, d). -/
def sessionsFor (l : List OtLog) (u d : Int) : List OtLog :=
  l.filter (fun s => s.user == u && s.date == d)

/-- Number of open `ot_logs` rows of (u, d). -/
def openCount (l : List OtLog) (u d : Int) : ℕ :=
  (l.filter (isOpenFor u d)).length

theorem no_open_of_sessions_nil {l : List OtLog} {u d : Int}
    (h : sessionsFor l u d = []) : ∀ s ∈ l, isOpenFor u d s = false := by
  intro s hs
  cases hopen : isOpenFor u d s with
  | false => rfl
  | true =>
    exfalso
    have h1 : (s.user == u && s.date == d) = true := by
      unfold isOpenFor at hopen
      exact (Bool.and_eq_true _ _ ▸ hopen).1
    have : s ∈ sessionsFor l u d := List.mem_filter.mpr ⟨hs, h1⟩
    rw [h] at this
    exact List.not_mem_nil s this

theorem find?_no_open {l : List OtLog} {u d : Int}
    (hno : ∀ s ∈ l, isOpenFor u d s = false) :
    l.find? (isOpenFor u d) = none := by
  rw [List.find?_eq_none]
  intro s hs
  simp [hno s hs]

theorem find?_append_no_open {l l2 : List OtLog} {u d : Int}
    (hno : ∀ s ∈ l, isOpenFor u d s = false) :
    (l ++ l2).find? (isOpenFor u d) = l2.find? (isOpenFor u d) := by
  induction l with
  | nil => rfl
  | cons s l ih =>
    rw [List.cons_append, List.find?_cons, hno s (List.mem_cons_self s l)]
    exact ih (fun x hx => hno x (List.mem_cons_of_mem s hx))

theorem closeFirst_append_no_open {l l2 : List OtLog} {u d : Int} (t : Int)
    (hno : ∀ s ∈ l, isOpenFor u d s = false) :
    closeFirst u d t (l ++ l2) = l ++ closeFirst u d t l2 := by
  induction l with
  | nil => rfl
  | cons s l ih =>
    rw [List.cons_append, closeFirst, hno s (List.mem_cons_self s l)]
    simp only [Bool.false_eq_true, if_false, List.cons_append, List.cons.injEq, true_and]
    exact ih (fun x hx => hno x (List.mem_cons_of_mem s hx))

theorem openCount_closeFirst_le (l : List OtLog) (u d t : Int) :
    openCount (closeFirst u d t l) u d ≤ openCount l u d := by
  induction l with
  | nil => simp [closeFirst]
  | cons s l ih =>
    by_cases h : isOpenFor u d s = true
    · have hclosed : isOpenFor u d
          { s with end_time := some t, duration := ((t : ℚ) - (s.start : ℚ)) / 3600 } = false := by
        simp [isOpenFor]
      simp only [closeFirst, h, if_pos, openCount, List.filter_cons, hclosed,
        Bool.false_eq_true]
      simp only [openCount] at ih ⊢
      simp [h]
    · have hb : isOpenFor u d s = false := by
        cases hb2 : isOpenFor u d s with
        | true => exact absurd hb2 h
        | false => rfl
      simp only [closeFirst, hb, Bool.false_eq_true, if_false, openCount,
        List.filter_cons] at ih ⊢
      exact ih

/-- The one-open-session-per-(worker, date) bound is preserved by the
toggle. -/
theorem openCount_ot_le (db2 : Db) (u d t : Int)
    (h : openCount db2.ot_logs u d ≤ 1) :
    openCount (ot db2 u d t).1.ot_logs u d ≤ 1 := by
  cases hfind : db2.ot_logs.find? (isOpenFor u d) with
  | none =>
    have hno : ∀ s ∈ db2.ot_logs, isOpenFor u d s = false := by
      intro s hs
      have h2 := List.find?_eq_none.mp hfind s hs
      cases hb : isOpenFor u d s with
      | true => exact absurd hb h2
      | false => rfl
    have h0 : db2.ot_logs.filter (isOpenFor u d) = [] :=
      List.filter_eq_nil_iff.mpr (fun s hs => by simp [hno s hs])
    simp only [ot, hfind, openCount, List.filter_append, h0, List.nil_append,
      List.length_append]
    simp [isOpenFor]
  | some s =>
    simp only [ot, hfind]
    exact le_trans (openCount_closeFirst_le db2.ot_logs u d t) h

/-- One open overtime session of worker 7 on date 5, started at 7200 s. -/
def dbOpenOt : Db :=
  { drivers := fun v => if v = 7 then some { monthly_salary := 3500, total_hours := 0 } else none
    clock_logs := fun _ _ => none
    ot_logs := [{ user := 7, date := 5, start := 7200, end_time := none, duration := 0, paid := false }]
    claims := []
    salary_payments := []
    monthly_reports := fun _ _ => none }

/-- C8 counterexample: closing an overtime session one hour before its
start is accepted: the session is closed with duration -1 and no
`InvalidTimeError` is raised (the claim requires the session to stay
open). -/
theorem ot_close_spec (dbx : Db) (u d t : Int) (s0 : OtLog)
    (hf : dbx.ot_logs.find? (isOpenFor u d) = some s0) :
    ot dbx u d t = ({ dbx with ot_logs := closeFirst u d t dbx.ot_logs },
      OtResult.completed (((t : ℚ) - (s0.start : ℚ)) / 3600)) := by
  simp [ot, hf]

theorem ot_open_spec (dbx : Db) (u d t : Int)
    (hf : dbx.ot_logs.find? (isOpenFor u d) = none) :
    ot dbx u d t = ({ dbx with ot_logs := dbx.ot_logs ++
      [{ user := u, date := d, start := t, end_time := none, duration := 0, paid := false }] },
      OtResult.started) := by
  simp [ot, hf]

theorem ot_negative_cex :
    (ot dbOpenOt 7 5 3600).2 = OtResult.completed (-1)
    ∧ (ot dbOpenOt 7 5 3600).1.ot_logs =
        [{ user := 7, date := 5, start := 7200, end_time := some 3600,
           duration := -1, paid := false }] := by
  have hfind : dbOpenOt.ot_logs.find? (isOpenFor 7 5) =
      some { user := 7, date := 5, start := 7200, end_time := none, duration := 0, paid := false } := rfl
  have hlist : dbOpenOt.ot_logs =
      [{ user := 7, date := 5, start := 7200, end_time := none, duration := 0, paid := false }] := rfl
  have hio : isOpenFor 7 5
      { user := 7, date := 5, start := 7200, end_time := none, duration := 0, paid := false } = true := rfl
  rw [ot_close_spec dbOpenOt 7 5 3600 _ hfind]
  constructor
  · norm_num
  · rw [hlist]
    simp only [closeFirst, hio, if_pos]
    norm_num

/-- C8 amended: at most one open session per (worker, date) is
maintained, and toggling twice from a state with no session for
(worker, today) yields exactly one closed session whose duration is
`(t2 - t1)/3600` — which is non-negative when `t1 ≤ t2`, but a close
earlier than the start stores the negative duration and closes the
session anyway; no `InvalidTimeError` exists. -/
theorem ot_toggle_amended (db : Db) (u d t1 t2 : Int)
    (hnone : sessionsFor db.ot_logs u d = []) :
    (ot db u d t1).2 = OtResult.started
    ∧ (ot (ot db u d t1).1 u d t2).2 = OtResult.completed (((t2 : ℚ) - (t1 : ℚ)) / 3600)
    ∧ sessionsFor (ot (ot db u d t1).1 u d t2).1.ot_logs u d =
        [{ user := u, date := d, start := t1, end_time := some t2,
           duration := ((t2 : ℚ) - (t1 : ℚ)) / 3600, paid := false }]
    ∧ (t1 ≤ t2 → 0 ≤ ((t2 : ℚ) - (t1 : ℚ)) / 3600)
    ∧ (∀ db2 : Db, openCount db2.ot_logs u d ≤ 1 →
        openCount (ot db2 u d t1).1.ot_logs u d ≤ 1) := by
  have hno := no_open_of_sessions_nil hnone
  have hfind1 : db.ot_logs.find? (isOpenFor u d) = none := find?_no_open hno
  have hopen_new : isOpenFor u d
      { user := u, date := d, start := t1, end_time := none, duration := 0, paid := false } = true := by
    simp [isOpenFor]
  have e1 := ot_open_spec db u d t1 hfind1
  have hfind2 : ({ db with ot_logs := db.ot_logs ++
      [{ user := u, date := d, start := t1, end_time := none, duration := 0, paid := false }] }
        : Db).ot_logs.find? (isOpenFor u d) =
      some { user := u, date := d, start := t1, end_time := none, duration := 0, paid := false } := by
    show (db.ot_logs ++ _).find? (isOpenFor u d) = _
    rw [find?_append_no_open hno, List.find?_cons, hopen_new]
  have e2 := ot_close_spec _ u d t2 _ hfind2
  refine ⟨?_, ?_, ?_, ?_, ?_⟩
  · rw [e1]
  · rw [e1]
    show (ot _ u d t2).2 = _
    rw [e2]
  · rw [e1]
    show sessionsFor (ot _ u d t2).1.ot_logs u d = _
    rw [e2]
    show sessionsFor (closeFirst u d t2 (db.ot_logs ++ _)) u d = _
    rw [closeFirst_append_no_open t2 hno]
    show (db.ot_logs ++ _).filter _ = _
    rw [List.filter_append]
    have hsess : db.ot_logs.filter (fun s => s.user == u && s.date == d) = [] := hnone
    rw [hsess]
    simp [closeFirst, hopen_new, isOpenFor]
  · intro hle
    have h1 : (0 : ℚ) ≤ (t2 : ℚ) - (t1 : ℚ) := by
      rw [sub_nonneg]
      exact_mod_cast hle
    positivity
  · exact fun db2 h2 => openCount_ot_le db2 u d t1 h2

/-- Witness for `ot_toggle_amended` from the empty store. -/
theorem ot_toggle_amended_w :
    (ot emptyDb 7 5 100).2 = OtResult.started
    ∧ (ot (ot emptyDb 7 5 100).1 7 5 250).2 =
        OtResult.completed (((250 : Int) - ((100 : Int) : ℚ)) / 3600)
    ∧ sessionsFor (ot (ot emptyDb 7 5 100).1 7 5 250).1.ot_logs 7 5 =
        [{ user := 7, date := 5, start := 100, end_time := some 250,
           duration := (((250 : Int) : ℚ) - ((100 : Int) : ℚ)) / 3600, paid := false }]
    ∧ ((100 : Int) ≤ 250 → 0 ≤ (((250 : Int) : ℚ) - ((100 : Int) : ℚ)) / 3600)
    ∧ (∀ db2 : Db, openCount db2.ot_logs 7 5 ≤ 1 →
        openCount (ot db2 7 5 100).1.ot_logs 7 5 ≤ 1) :=
  ot_toggle_amended emptyDb 7 5 100 250 rfl

/-- Closing a session of (u, d) never touches rows dated differently. -/
theorem filter_ne_date_closeFirst (l : List OtLog) (u d t : Int) :
    (closeFirst u d t l).filter (fun x => !(x.date == d)) =
      l.filter (fun x => !(x.date == d)) := by
  induction l with
  | nil => rfl
  | cons s l ih =>
    by_cases h : isOpenFor u d s = true
    · have hd : (s.date == d) = true := by
        unfold isOpenFor at h
        have h1 := (Bool.and_eq_true _ _ ▸ h).1
        exact (Bool.and_eq_true _ _ ▸ h1).2
      simp only [closeFirst, h, if_pos, List.filter_cons, hd, Bool.not_true,
        Bool.false_eq_true, if_false]
    · have hb : isOpenFor u d s = false := by
        cases hb2 : isOpenFor u d s with
        | true => exact absurd hb2 h
        | false => rfl
      simp only [closeFirst, hb, Bool.false_eq_true, if_false, List.filter_cons]
      rw [ih]

/-- C10 (confirmed): a later toggle — always scoped to its own date —
leaves every session dated differently untouched (a stale open session
is never closed), and an open session contributes nothing to the
settlement's OT sum, which only counts rows with a non-NULL end. -/
theorem stale_open_session_ignored (db : Db) (u today tval u2 fd ld : Int) (s : OtLog)
    (hopen : s.end_time = none) :
    ((ot db u today tval).1.ot_logs.filter (fun x => !(x.date == today))) =
      db.ot_logs.filter (fun x => !(x.date == today))
    ∧ otHoursList (s :: db.ot_logs) u2 fd ld = otHoursList db.ot_logs u2 fd ld := by
  constructor
  · cases hfind : db.ot_logs.find? (isOpenFor u today) with
    | none => simp [ot, hfind]
    | some s2 =>
      simp only [ot, hfind]
      exact filter_ne_date_closeFirst db.ot_logs u today tval
  · simp [otHoursList, List.filter_cons, hopen]

/-- Witness for `stale_open_session_ignored` at a concrete stale
session. -/
theorem stale_open_session_ignored_w :
    ((ot emptyDb 7 5 200).1.ot_logs.filter (fun x => !(x.date == 5))) =
      emptyDb.ot_logs.filter (fun x => !(x.date == 5))
    ∧ otHoursList
        ({ user := 7, date := 1, start := 100, end_time := none, duration := 0, paid := false }
          :: emptyDb.ot_logs) 7 1 10 =
      otHoursList emptyDb.ot_logs 7 1 10 :=
  stale_open_session_ignored emptyDb 7 5 200 7 1 10
    { user := 7, date := 1, start := 100, end_time := none, duration := 0, paid := false } rfl

/-! ### C7: off-day mutual exclusivity -/

/-- The ledger operations, as one step relation. -/
inductive Step where
  | clockIn (u d tval : Int) (g : GeoResult)
  | clockOut (u d tval : Int)
  | markOff (u d : Int)
  | toggleOt (u d tval : Int)
  | doPaid (u fd ld : Int) (s : Settlement) (committed : Bool)

def stepRun : Step → Db → Db
  | Step.clockIn u d tval g, db => (handle_location db u d tval g).1
  | Step.clockOut u d tval, db => (clockout db u d tval).1
  | Step.markOff u d, db => (offday db u d).1
  | Step.toggleOt u d tval, db => (ot db u d tval).1
  | Step.doPaid u fd ld s c, db => paid_confirm_run db u fd ld s c

/-- The invariant: an off-day row has both clock cells NULL. -/
def OffExclusive (db : Db) : Prop :=
  ∀ u d r, db.clock_logs u d = some r → r.is_off = true →
    r.clock_in = none ∧ r.clock_out = none

theorem handle_location_abort_spec (db : Db) (u d tval : Int) (g : GeoResult)
    (hg : geoAborts (geoString g) = true) :
    handle_location db u d tval g = (db, false) := by
  simp [handle_location, hg]

theorem offExcl_clockIn (db : Db) (u d tval : Int) (g : GeoResult)
    (h : OffExclusive db) : OffExclusive (handle_location db u d tval g).1 := by
  intro u2 d2 r2 hr2 hoff
  cases hg : geoAborts (geoString g) with
  | true =>
    rw [handle_location_abort_spec db u d tval g hg] at hr2
    exact h u2 d2 r2 hr2 hoff
  | false =>
    cases hlog : db.clock_logs u d with
    | none =>
      have hcl : (handle_location db u d tval g).1.clock_logs =
          setClockLog db.clock_logs u d
            { clock_in := some (ClockVal.time tval), clock_out := none,
              is_off := false, paid := false, location := some (geoString g) } := by
        simp [handle_location, hg, hlog]
      rw [hcl] at hr2
      unfold setClockLog at hr2
      by_cases he : u2 = u ∧ d2 = d
      · rw [if_pos he] at hr2
        injection hr2 with h2
        subst h2
        exact absurd hoff (by simp)
      · rw [if_neg he] at hr2
        exact h u2 d2 r2 hr2 hoff
    | some r =>
      have hcl : (handle_location db u d tval g).1.clock_logs =
          setClockLog db.clock_logs u d
            { r with clock_in := some (ClockVal.time tval),
                     location := some (geoString g), is_off := false } := by
        simp [handle_location, hg, hlog]
      rw [hcl] at hr2
      unfold setClockLog at hr2
      by_cases he : u2 = u ∧ d2 = d
      · rw [if_pos he] at hr2
        injection hr2 with h2
        subst h2
        exact absurd hoff (by simp)
      · rw [if_neg he] at hr2
        exact h u2 d2 r2 hr2 hoff

theorem offExcl_clockOut (db : Db) (u d tval : Int)
    (h : OffExclusive db) : OffExclusive (clockout db u d tval).1 := by
  intro u2 d2 r2 hr2 hoff
  cases hlog : db.clock_logs u d with
  | none =>
    rw [show (clockout db u d tval).1 = db by simp [clockout, hlog]] at hr2
    exact h u2 d2 r2 hr2 hoff
  | some r =>
    cases hin : r.clock_in with
    | none =>
      rw [show (clockout db u d tval).1 = db by simp [clockout, hlog, hin]] at hr2
      exact h u2 d2 r2 hr2 hoff
    | some cv =>
      cases cv with
      | off =>
        rw [show (clockout db u d tval).1 = db by simp [clockout, hlog, hin]] at hr2
        exact h u2 d2 r2 hr2 hoff
      | bad =>
        rw [show (clockout db u d tval).1 = db by simp [clockout, hlog, hin]] at hr2
        exact h u2 d2 r2 hr2 hoff
      | time i =>
        have hcl : (clockout db u d tval).1.clock_logs =
            setClockLog db.clock_logs u d
              { r with clock_out := some (ClockVal.time tval) } := by
          simp [clockout, hlog, hin]
        rw [hcl] at hr2
        unfold setClockLog at hr2
        by_cases he : u2 = u ∧ d2 = d
        · rw [if_pos he] at hr2
          injection hr2 with h2
          subst h2
          have hro : r.is_off = true := hoff
          have hboth := h u d r hlog hro
          rw [hboth.1] at hin
          exact nomatch hin
        · rw [if_neg he] at hr2
          exact h u2 d2 r2 hr2 hoff

theorem offExcl_markOff (db : Db) (u d : Int)
    (h : OffExclusive db) : OffExclusive (offday db u d).1 := by
  intro u2 d2 r2 hr2 hoff
  cases hlog : db.clock_logs u d with
  | some r =>
    by_cases hc : (r.clock_in.isSome || r.clock_out.isSome) = true
    · rw [show (offday db u d).1 = db by simp [offday, hlog, hc]] at hr2
      exact h u2 d2 r2 hr2 hoff
    · have hcl : (offday db u d).1.clock_logs =
          setClockLog db.clock_logs u d
            { r with clock_in := none, clock_out := none, is_off := true } := by
        simp only [offday, hlog]
        rw [if_neg hc]
      rw [hcl] at hr2
      unfold setClockLog at hr2
      by_cases he : u2 = u ∧ d2 = d
      · rw [if_pos he] at hr2
        injection hr2 with h2
        subst h2
        exact ⟨rfl, rfl⟩
      · rw [if_neg he] at hr2
        exact h u2 d2 r2 hr2 hoff
  | none =>
    have hcl : (offday db u d).1.clock_logs =
        setClockLog db.clock_logs u d
          { clock_in := none, clock_out := none, is_off := true,
            paid := false, location := none } := by
      simp [offday, hlog]
    rw [hcl] at hr2
    unfold setClockLog at hr2
    by_cases he : u2 = u ∧ d2 = d
    · rw [if_pos he] at hr2
      injection hr2 with h2
      subst h2
      exact ⟨rfl, rfl⟩
    · rw [if_neg he] at hr2
      exact h u2 d2 r2 hr2 hoff

theorem ot_clock_logs (db : Db) (u d t : Int) :
    (ot db u d t).1.clock_logs = db.clock_logs := by
  cases hf : db.ot_logs.find? (isOpenFor u d) <;> simp [ot, hf]

theorem offExcl_toggleOt (db : Db) (u d tval : Int)
    (h : OffExclusive db) : OffExclusive (ot db u d tval).1 := by
  intro u2 d2 r2 hr2 hoff
  rw [ot_clock_logs] at hr2
  exact h u2 d2 r2 hr2 hoff

theorem offExcl_doPaid (db : Db) (u fd ld : Int) (sm : Settlement) (c : Bool)
    (h : OffExclusive db) : OffExclusive (paid_confirm_run db u fd ld sm c) := by
  cases c with
  | false => exact h
  | true =>
    intro u2 d2 r2 hr2 hoff
    have hcl : (paid_confirm_run db u fd ld sm true).clock_logs =
        markPaidLog db.clock_logs u fd ld := rfl
    rw [hcl] at hr2
    unfold markPaidLog at hr2
    by_cases he : u2 = u ∧ inRangeB fd ld d2 = true
    · rw [if_pos he] at hr2
      cases hv : db.clock_logs u2 d2 with
      | none =>
        rw [hv] at hr2
        exact nomatch hr2
      | some r0 =>
        rw [hv] at hr2
        simp only [Option.map_some'] at hr2
        injection hr2 with h2
        subst h2
        have hro : r0.is_off = true := hoff
        exact h u2 d2 r0 hv hro
    · rw [if_neg he] at hr2
      exact h u2 d2 r2 hr2 hoff

/-- C7 (confirmed): the mutual exclusivity of `is_off` with non-NULL
clock cells is preserved by every ledger operation, `offday` refuses
exactly when the day's row has a non-NULL clock cell, and a successful
`offday` leaves the row an off-day with both clock cells cleared. -/
theorem off_day_mutual_exclusion (db : Db) (st : Step) (u d : Int)
    (hInv : OffExclusive db) :
    OffExclusive (stepRun st db)
    ∧ ((offday db u d).2 = OffdayResult.conflict ↔
        ∃ r, db.clock_logs u d = some r ∧ (r.clock_in ≠ none ∨ r.clock_out ≠ none))
    ∧ ((offday db u d).2 = OffdayResult.ok →
        ∃ r2, (offday db u d).1.clock_logs u d = some r2 ∧ r2.is_off = true
          ∧ r2.clock_in = none ∧ r2.clock_out = none) := by
  refine ⟨?_, ?_, ?_⟩
  · cases st with
    | clockIn u2 d2 tval g => exact offExcl_clockIn db u2 d2 tval g hInv
    | clockOut u2 d2 tval => exact offExcl_clockOut db u2 d2 tval hInv
    | markOff u2 d2 => exact offExcl_markOff db u2 d2 hInv
    | toggleOt u2 d2 tval => exact offExcl_toggleOt db u2 d2 tval hInv
    | doPaid u2 fd ld sm c => exact offExcl_doPaid db u2 fd ld sm c hInv
  · cases hlog : db.clock_logs u d with
    | none =>
      constructor
      · intro hc
        have : (offday db u d).2 = OffdayResult.ok := by simp [offday, hlog]
        rw [this] at hc
        exact nomatch hc
      · rintro ⟨r, hr, -⟩
        exact nomatch hr
    | some r =>
      by_cases hc : (r.clock_in.isSome || r.clock_out.isSome) = true
      · constructor
        · intro _
          refine ⟨r, rfl, ?_⟩
          rcases Bool.or_eq_true _ _ ▸ hc with h1 | h1
          · exact Or.inl (Option.isSome_iff_ne_none.mp h1)
          · exact Or.inr (Option.isSome_iff_ne_none.mp h1)
        · intro _
          simp [offday, hlog, hc]
      · constructor
        · intro hcf
          have : (offday db u d).2 = OffdayResult.ok := by
            simp only [offday, hlog]
            rw [if_neg hc]
          rw [this] at hcf
          exact nomatch hcf
        · rintro ⟨r2, hr2, h1⟩
          injection hr2 with h2
          subst h2
          exfalso
          simp only [Bool.or_eq_true, Option.isSome_iff_ne_none] at hc
          push_neg at hc
          rcases h1 with h1 | h1
          · exact h1 hc.1
          · exact h1 hc.2
  · intro hok
    cases hlog : db.clock_logs u d with
    | some r =>
      by_cases hc : (r.clock_in.isSome || r.clock_out.isSome) = true
      · rw [show (offday db u d).2 = OffdayResult.conflict by simp [offday, hlog, hc]] at hok
        exact nomatch hok
      · have hcl : (offday db u d).1.clock_logs =
            setClockLog db.clock_logs u d
              { r with clock_in := none, clock_out := none, is_off := true } := by
          simp only [offday, hlog]
          rw [if_neg hc]
        refine ⟨{ r with clock_in := none, clock_out := none, is_off := true }, ?_, rfl, rfl, rfl⟩
        rw [hcl]
        unfold setClockLog
        rw [if_pos ⟨rfl, rfl⟩]
    | none =>
      have hcl : (offday db u d).1.clock_logs =
          setClockLog db.clock_logs u d
            { clock_in := none, clock_out := none, is_off := true,
              paid := false, location := none } := by
        simp [offday, hlog]
      refine ⟨{ clock_in := none, clock_out := none, is_off := true,
                paid := false, location := none }, ?_, rfl, rfl, rfl⟩
      rw [hcl]
      unfold setClockLog
      rw [if_pos ⟨rfl, rfl⟩]

/-- Witness for `off_day_mutual_exclusion`: marking an off-day in the
empty store. -/
theorem off_day_mutual_exclusion_w :
    OffExclusive (stepRun (Step.markOff 7 5) emptyDb)
    ∧ ((offday emptyDb 7 5).2 = OffdayResult.conflict ↔
        ∃ r, emptyDb.clock_logs 7 5 = some r ∧ (r.clock_in ≠ none ∨ r.clock_out ≠ none))
    ∧ ((offday emptyDb 7 5).2 = OffdayResult.ok →
        ∃ r2, (offday emptyDb 7 5).1.clock_logs 7 5 = some r2 ∧ r2.is_off = true
          ∧ r2.clock_in = none ∧ r2.clock_out = none) :=
  off_day_mutual_exclusion emptyDb (Step.markOff 7 5) 7 5 (fun _ _ _ h => nomatch h)

end ClockBot
